import Mathlib

/-! CHAOS controller: command dispatch and client build

A shallow embedding of `services/client/client_service.go`:

* `SendCommand` / `HandleResponse`: publish a command record, poll the
  response store, post-process the reply, return it or an error;
* `BuildClient` and its helpers: validate the server address, issue a token,
  resolve the output filename, compose and run the build command.

Go strings are modelled as Lean strings (sequences of characters), byte slices
as lists of bytes.  Collaborators whose code lives outside the file (base64
helper, byte/string helpers, PNG writer, token issuer, filename normaliser,
child process) are fields of the records `Collaborators` and
`BuildCollaborators`, so every theorem holds for all of their behaviours.

The library functions the file calls are modelled after their Go sources
(Go 1.22): `strings.TrimSpace`, `fmt.Errorf` with a format and no operands,
`fmt.Sprintf` with `%s` verbs, `net.ParseIP`, `url.ParseRequestURI` (success
and scheme only) and `uuid.UUID.String`.  Later Go releases are stricter on
two points that no theorem below depends on: IPv6 groups of more than four
hex digits, and bracketed URL hosts that are not IPv6 literals.  A panic (nil pointer dereference) is
an outcome of its own, and a call that is still polling is an outcome too, so
that a run is defined for every finite prefix of the environment's steps.
-/

namespace Chaos

/-! ## Go strings -/

/-- Go `unicode.IsSpace`: the Latin-1 spaces `\t \n \v \f \r`, space, U+0085,
U+00A0, and the other code points with the White_Space property. -/
def isSpace (c : Char) : Bool :=
  let n := c.toNat
  n == 0x09 || n == 0x0A || n == 0x0B || n == 0x0C || n == 0x0D || n == 0x20
    || n == 0x85 || n == 0xA0 || n == 0x1680 || (0x2000 ≤ n && n ≤ 0x200A)
    || n == 0x2028 || n == 0x2029 || n == 0x202F || n == 0x205F || n == 0x3000

/-- Go `strings.TrimSpace`: drop leading and trailing white space. -/
def TrimSpace (s : String) : String :=
  String.mk ((s.data.dropWhile isSpace).reverse.dropWhile isSpace).reverse

/-- Go `len` on a string: its length in bytes. -/
def len (s : String) : Nat := s.utf8ByteSize

/-! ## Go `fmt` with a format string and no operands -/

/-- The flag characters skipped after a `%` (`doPrintf`, loop `simpleFormat`). -/
def isFlag (c : Char) : Bool :=
  c == '#' || c == '0' || c == '+' || c == '-' || c == ' '

/-- Go `fmt.tooLarge`. -/
def tooLarge (x : Nat) : Bool := x > 1000000

/-- The digit loop of Go `fmt.parsenum` on the text between `start` and `end`:
returns the number, whether a digit was read, and the unread text.  On
overflow the scan gives up and consumes everything (`newi = end`). -/
def parsenumLoop : List Char → Nat → Bool → Nat × Bool × List Char
  | [], num, isnum => (num, isnum, [])
  | c :: cs, num, isnum =>
    if '0' ≤ c ∧ c ≤ '9' then
      if tooLarge num then (0, false, [])
      else parsenumLoop cs (num * 10 + (c.toNat - '0'.toNat)) true
    else (num, isnum, c :: cs)

/-- Go `fmt.parsenum`. -/
def parsenum (s : List Char) : Nat × Bool × List Char :=
  parsenumLoop s 0 false

/-- Go `fmt.parseArgNumber` on text that starts with `[`: the width of the
bracketed index to skip and whether it is well formed (`[n]`).  The index
itself is never in range when there are no operands. -/
def parseArgNumber (format : List Char) : Nat × Bool :=
  if format.length < 3 then (1, false)
  else
    match (format.drop 1).indexOf? ']' with
    | none => (1, false)
    | some k =>
      -- the closing bracket is at index `k + 1`
      let (_, ok, rest) := parsenum ((format.drop 1).take k)
      if !ok || !rest.isEmpty then (k + 2, false) else (k + 2, true)

/-- Go `(*pp).argNumber` with no operands: returns the unread text, whether an
index was found, and whether `goodArgNum` stays set. -/
def argNumber (format : List Char) (good : Bool) : List Char × Bool × Bool :=
  match format with
  | '[' :: _ =>
    let (wid, ok) := parseArgNumber format
    (format.drop wid, ok, false)
  | _ => (format, false, good)

/-- One verb of Go `(*pp).doPrintf` with no operands, on the text after the
`%`: the output written and the unread text (`none` when the format ended
without a verb, which ends the whole loop). -/
def doVerb (format : List Char) : List Char × Option (List Char) :=
  -- flags
  let s := format.dropWhile isFlag
  -- explicit argument index
  let (s, afterIndex, good) := argNumber s true
  -- width
  let (s, afterIndex, good, out) :=
    match s with
    | '*' :: t => (t, false, good, "%!(BADWIDTH)".data)
    | _ =>
      let (_, widPresent, t) := parsenum s
      (t, afterIndex, good && !(afterIndex && widPresent), [])
  -- precision: only when the dot is not the last character (`i+1 < end`);
  -- a final dot is left to be the verb
  let (s, afterIndex, good, out) :=
    match s with
    | '.' :: c :: t =>
      let good := good && !afterIndex
      let (t, afterIndex, good) := argNumber (c :: t) good
      match t with
      | '*' :: u => (u, false, good, out ++ "%!(BADPREC)".data)
      | _ =>
        let (_, _, u) := parsenum t
        (u, afterIndex, good, out)
    | _ => (s, afterIndex, good, out)
  let (s, good) :=
    if !afterIndex then
      let (t, _, good) := argNumber s good
      (t, good)
    else (s, good)
  match s with
  | [] => (out ++ "%!(NOVERB)".data, none)
  | verb :: t =>
    if verb == '%' then (out ++ ['%'], some t)
    else if !good then (out ++ "%!".data ++ [verb] ++ "(BADINDEX)".data, some t)
    else (out ++ "%!".data ++ [verb] ++ "(MISSING)".data, some t)

/-- Go `(*pp).doPrintf` with no operands.  Every round consumes at least the
`%`, so `fuel = length` suffices. -/
def doPrintf : Nat → List Char → List Char
  | _, [] => []
  | 0, _ => []
  | fuel + 1, c :: cs =>
    if c == '%' then
      match doVerb cs with
      | (out, none) => out
      | (out, some rest) => out ++ doPrintf fuel rest
    else c :: doPrintf fuel cs

/-- Go `fmt.Sprintf(format)` with no operands. -/
def Sprintf0 (format : String) : String :=
  String.mk (doPrintf format.data.length format.data)

/-- A Go `error`: its message and, when it wraps another error with `%w`, the
message of the wrapped error. -/
structure GoError where
  message : String
  wrapped : Option String := none
deriving DecidableEq, Repr

/-- Go `fmt.Errorf(format)` with no operands. -/
def Errorf0 (format : String) : GoError := { message := Sprintf0 format }

/-! ## Data model of the dispatcher -/

abbrev Byte := Fin 256
abbrev Bytes := List Byte

/-- The record `payload.Data`, with Go zero values as defaults. -/
structure Data where
  Request : String := ""
  Response : Bytes := []
  HasResponse : Bool := false
  HasError : Bool := false
deriving DecidableEq, Repr

/-- Modelled from the spec: the Response Store behind `payload.Service`, a
mapping from agent identifier to at most one record.  A missing record reads
as `none` (the nil pointer of the Go map). -/
abbrev Store := String → Option Data

/-- Modelled from the spec: `set(id, record)`. -/
def Store.Set (s : Store) (key : String) (d : Data) : Store :=
  fun k => if k = key then some d else s k

/-- Modelled from the spec: `get(id) -> record`. -/
def Store.Get (s : Store) (key : String) : Option Data := s key

/-- Modelled from the spec: `remove(id)`. -/
def Store.Remove (s : Store) (key : String) : Store :=
  fun k => if k = key then none else s k

/-- The collaborators of `SendCommand` that live in other packages. -/
structure Collaborators where
  /-- The helper `utils.DecodeBase64`. -/
  DecodeBase64 : String → Except GoError String
  /-- The helper `utils.ByteToString`. -/
  ByteToString : Bytes → String
  /-- The helper `utils.StringToByte`. -/
  StringToByte : String → Bytes
  /-- The encoder `image.WritePNG`: the path of the written file, or an error. -/
  WritePNG : Bytes → Except GoError String
  /-- The constant `internal.NoContent`. -/
  NoContent : String

structure SendCommandInput where
  MacAddress : String
  Request : String
deriving DecidableEq, Repr

structure SendCommandOutput where
  Response : String := ""
deriving DecidableEq, Repr

/-- How a call of `SendCommand` stands after the environment steps supplied. -/
inductive Outcome where
  /-- Still in the poll loop: the call has not returned. -/
  | polling
  /-- A nil pointer was dereferenced: the call ended in a run-time panic. -/
  | panicked
  /-- The call returned `(out, err)`. -/
  | returned (out : SendCommandOutput) (err : Option GoError)
deriving DecidableEq, Repr

/-- `HandleResponse`: the record after post-processing, or the encoder's
error (with a nil record). -/
def HandleResponse (c : Collaborators) (payload : Data) : Except GoError Data :=
  if payload.Request = "screenshot" then
    match c.WritePNG payload.Response with
    | .error err => .error err
    | .ok file => .ok { payload with Response := c.StringToByte file }
  else .ok payload

/-- How the poll loop of `SendCommand` ended. -/
inductive PollExit where
  /-- No read has shown `HasResponse` yet. -/
  | blocked
  /-- A read returned a nil record and `res.Request = ...` dereferenced it. -/
  | nilRecord
  /-- The loop finished with `payloadData` (nil when `HandleResponse` failed;
  its error is discarded by `payloadData, _ = HandleResponse(res)`). -/
  | responded (payloadData : Option Data)
deriving DecidableEq, Repr

/-- State of a run of the poll loop: how it ended, the store, the reads made
(key and record returned) and the payload handed to `image.WritePNG`. -/
structure PollRun where
  exit : PollExit
  store : Store
  reads : List (String × Option Data)
  encoded : Option Bytes

/-- The loop `for !done { ... }` of `SendCommand`.  Each element of `ext` is
what the rest of the system (the delivery path) does to the store during one
`time.Sleep`.  Records are held by reference, so the writes to `res` show in
the store entry just read. -/
def pollLoop (c : Collaborators) (addr request : String) :
    Store → List (Store → Store) → PollRun
  | s, [] => { exit := .blocked, store := s, reads := [], encoded := none }
  | s, step :: ext =>
    let s := step s
    match s.Get addr with
    | none =>
      { exit := .nilRecord, store := s, reads := [(addr, none)], encoded := none }
    | some got =>
      let res := { got with Request := request }
      let s := s.Set addr res
      if res.HasResponse then
        match HandleResponse c res with
        | .ok payloadData =>
          { exit := .responded (some payloadData), store := s.Set addr payloadData,
            reads := [(addr, some got)],
            encoded := if res.Request = "screenshot" then some res.Response else none }
        | .error _ =>
          { exit := .responded none, store := s,
            reads := [(addr, some got)], encoded := some res.Response }
      else
        let rest := pollLoop c addr request s ext
        { rest with reads := (addr, some got) :: rest.reads }

/-- The tail of `SendCommand` after the loop. -/
def respond (c : Collaborators) : PollExit → Outcome
  | .blocked => .polling
  | .nilRecord => .panicked
  | .responded none => .panicked
  | .responded (some payloadData) =>
    let res := c.ByteToString payloadData.Response
    if payloadData.HasError then .returned {} (some (Errorf0 res))
    else if len (TrimSpace res) == 0 then .returned { Response := c.NoContent } none
    else .returned { Response := res } none

/-- A run of `SendCommand`: outcome, final store, reads made, payload encoded. -/
structure Run where
  outcome : Outcome
  store : Store
  reads : List (String × Option Data)
  encoded : Option Bytes

/-- `clientService.SendCommand`.  The deferred `Remove(addr)` runs whenever
the call ends, by return or by panic; while the loop is still polling it has
not run. -/
def SendCommand (c : Collaborators) (input : SendCommandInput)
    (store : Store) (ext : List (Store → Store)) : Run :=
  match c.DecodeBase64 input.MacAddress with
  | .error err =>
    { outcome := .returned {} (some
        { message := "error decoding base64: " ++ err.message, wrapped := some err.message }),
      store := store, reads := [], encoded := none }
  | .ok addr =>
    let s := store.Set addr { Request := input.Request }
    let p := pollLoop c addr input.Request s ext
    { outcome := respond c p.exit,
      store := if p.exit = .blocked then p.store else p.store.Remove addr,
      reads := p.reads, encoded := p.encoded }

/-! ## The variant of the dispatcher without the re-stamp -/

/-- The poll loop with the statement `res.Request = input.Request` left out. -/
def pollLoopNoRestamp (c : Collaborators) (addr : String) :
    Store → List (Store → Store) → PollRun
  | s, [] => { exit := .blocked, store := s, reads := [], encoded := none }
  | s, step :: ext =>
    let s := step s
    match s.Get addr with
    | none =>
      { exit := .nilRecord, store := s, reads := [(addr, none)], encoded := none }
    | some res =>
      if res.HasResponse then
        match HandleResponse c res with
        | .ok payloadData =>
          { exit := .responded (some payloadData), store := s.Set addr payloadData,
            reads := [(addr, some res)],
            encoded := if res.Request = "screenshot" then some res.Response else none }
        | .error _ =>
          { exit := .responded none, store := s,
            reads := [(addr, some res)], encoded := some res.Response }
      else
        let rest := pollLoopNoRestamp c addr s ext
        { rest with reads := (addr, some res) :: rest.reads }

/-- The dispatcher with the statement `res.Request = input.Request` left out;
everything else as in `SendCommand`. -/
def SendCommandNoRestamp (c : Collaborators) (input : SendCommandInput)
    (store : Store) (ext : List (Store → Store)) : Run :=
  match c.DecodeBase64 input.MacAddress with
  | .error err =>
    { outcome := .returned {} (some
        { message := "error decoding base64: " ++ err.message, wrapped := some err.message }),
      store := store, reads := [], encoded := none }
  | .ok addr =>
    let s := store.Set addr { Request := input.Request }
    let p := pollLoopNoRestamp c addr s ext
    { outcome := respond c p.exit,
      store := if p.exit = .blocked then p.store else p.store.Remove addr,
      reads := p.reads, encoded := p.encoded }

/-- An environment step that leaves `r` under `addr` (`none`: no record) and
keeps all other entries. -/
def overwrite (addr : String) (r : Option Data) : Store → Store :=
  fun s k => if k = addr then r else s k

/-- Environment steps under which the store returns, poll after poll, exactly
the given sequence of records for `addr`. -/
def scripted (addr : String) (records : List (Option Data)) : List (Store → Store) :=
  records.map (overwrite addr)

/-- Whether a record returned by the store ends the poll loop: a nil record
(the loop faults) or one that shows `HasResponse`. -/
def endsPolling : Option Data → Bool
  | none => true
  | some d => d.HasResponse

/-- A record shows no response yet: it is present, read under `addr`, and
its `HasResponse` is false. -/
def Waiting (addr : String) (x : String × Option Data) : Prop :=
  ∃ d, x = (addr, some d) ∧ d.HasResponse = false

/-! ## Concrete collaborators for the examples -/

/-- A pair of ASCII conversions between bytes and text. -/
def asciiString (b : Bytes) : String := String.mk (b.map fun x => Char.ofNat x.val)

def asciiBytes (s : String) : Bytes := s.data.map fun ch => Fin.ofNat ch.toNat

/-- Collaborators for the examples: `"YWdlbnQ="` is the base64 text of
`"agent"`, the encoder rejects an empty image and otherwise writes
`shot.png`. -/
def exampleCollaborators : Collaborators where
  DecodeBase64 := fun s =>
    if s = "YWdlbnQ=" then .ok "agent" else .error { message := "illegal base64 data" }
  ByteToString := asciiString
  StringToByte := asciiBytes
  WritePNG := fun b =>
    if b = [] then .error { message := "image: unknown format" } else .ok "shot.png"
  NoContent := "[no content]"

/-- The empty Response Store. -/
def emptyStore : Store := fun _ => none

/-- The delivery path writes the agent's reply into the record under `addr`. -/
def deliver (addr : String) (response : Bytes) (hasError : Bool) : Store → Store :=
  fun s k =>
    if k = addr then
      (s k).map fun d => { d with Response := response, HasResponse := true, HasError := hasError }
    else s k

/-! ## Go `net.ParseIP` -/

def isDigit (c : Char) : Bool := '0' ≤ c && c ≤ '9'

def isHex (c : Char) : Bool :=
  ('0' ≤ c && c ≤ '9') || ('a' ≤ c && c ≤ 'f') || ('A' ≤ c && c ≤ 'F')

/-- The loop of Go `netip.parseIPv4Fields`: `val`, `pos`, `digLen` are the
loop variables, `first` tells whether the index is 0 and `prevDot` whether the
previous character is a dot.  Returns whether four fields were read. -/
def parseIPv4Loop : List Char → Nat → Nat → Nat → Bool → Bool → Bool
  | [], _, pos, _, _, _ => !(pos < 3)
  | c :: cs, val, pos, digLen, first, prevDot =>
    if isDigit c then
      if digLen == 1 && val == 0 then false
      else
        let val := val * 10 + (c.toNat - '0'.toNat)
        if val > 255 then false
        else parseIPv4Loop cs val pos (digLen + 1) false false
    else if c == '.' then
      if first || cs.isEmpty || prevDot then false
      else if pos == 3 then false
      else parseIPv4Loop cs 0 (pos + 1) 0 false true
    else false

/-- Go `netip.parseIPv4`: dotted decimal, four fields of at most 255, no
leading zero. -/
def parseIPv4 (s : List Char) : Bool := parseIPv4Loop s 0 0 0 true false

/-- The hex-digit loop of a group in Go `netip.parseIPv6`: `off` digits read
so far with value `acc`; `none` when the value overflows 16 bits (the only
check of Go 1.22: leading zeros may make a group longer than four digits),
else the number of digits and the unread text. -/
def parseHexGroup : List Char → Nat → Nat → Option (Nat × List Char)
  | [], off, _ => some (off, [])
  | c :: cs, off, acc =>
    if isHex c then
      let d :=
        if '0' ≤ c ∧ c ≤ '9' then c.toNat - '0'.toNat
        else if 'a' ≤ c ∧ c ≤ 'f' then c.toNat - 'a'.toNat + 10
        else c.toNat - 'A'.toNat + 10
      let acc := acc * 16 + d
      if acc > 65535 then none
      else parseHexGroup cs (off + 1) acc
    else some (off, c :: cs)

/-- The main loop `for i < 16` of Go `netip.parseIPv6`: `i` bytes are filled,
`ellipsis` tells whether a `::` was seen.  Returns the final `i`, the
ellipsis flag and the unread text, or `none` on a parse error. -/
def parseIPv6Loop : Nat → List Char → Nat → Bool → Option (Nat × Bool × List Char)
  | 0, s, i, ellipsis => some (i, ellipsis, s)
  | fuel + 1, s, i, ellipsis =>
    if i < 16 then
      match parseHexGroup s 0 0 with
      | none => none
      | some (off, rest) =>
        if off == 0 then none
        else
          match rest with
          | '.' :: _ =>
            -- trailing embedded IPv4
            if !ellipsis && i != 12 then none
            else if i + 4 > 16 then none
            else if !parseIPv4 s then none
            else some (i + 4, ellipsis, [])
          | [] => some (i + 2, ellipsis, [])
          | c :: rest1 =>
            if c != ':' then none
            else
              match rest1 with
              | [] => none
              | ':' :: rest2 =>
                if ellipsis then none
                else if rest2.isEmpty then some (i + 2, true, [])
                else parseIPv6Loop fuel rest2 (i + 2) true
              | _ => parseIPv6Loop fuel rest1 (i + 2) ellipsis
    else some (i, ellipsis, s)

/-- Go `netip.parseIPv6` for a text without zone. -/
def parseIPv6 (s : List Char) : Bool :=
  let (s, ellipsis, done) :=
    match s with
    | ':' :: ':' :: t => (t, true, t.isEmpty)
    | _ => (s, false, false)
  if done then true
  else
    match parseIPv6Loop 9 s 0 ellipsis with
    | none => false
    | some (i, ellipsis, rest) =>
      if !rest.isEmpty then false
      else if i < 16 then ellipsis
      else !ellipsis

/-- The dispatch of Go `netip.ParseAddr` on the first `.`, `:` or `%`. -/
def parseAddrFrom (whole : List Char) : List Char → Bool
  | [] => false
  | c :: cs =>
    if c == '.' then parseIPv4 whole
    else if c == ':' then
      -- `net.ParseIP` rejects an address with a zone, `netip` an empty zone
      if whole.contains '%' then false else parseIPv6 whole
    else if c == '%' then false
    else parseAddrFrom whole cs

/-- Go `net.ParseIP(s) != nil`. -/
def ParseIP (s : String) : Bool := parseAddrFrom s.data s.data

/-! ## Go `url.ParseRequestURI` -/

/-- Go `url.stringContainsCTLByte`. -/
def stringContainsCTLByte (s : List Char) : Bool :=
  s.any fun c => c.toNat < 0x20 || c.toNat == 0x7f

def isAlpha (c : Char) : Bool := ('a' ≤ c && c ≤ 'z') || ('A' ≤ c && c ≤ 'Z')

/-- The loop of Go `url.getScheme`: `acc` holds the characters read so far (in
reverse).  Returns scheme and rest, or `none` for "missing protocol scheme". -/
def getSchemeLoop (rawURL : List Char) : List Char → List Char → Option (List Char × List Char)
  | [], _ => some ([], rawURL)
  | c :: cs, acc =>
    if isAlpha c then getSchemeLoop rawURL cs (c :: acc)
    else if isDigit c || c == '+' || c == '-' || c == '.' then
      if acc.isEmpty then some ([], rawURL) else getSchemeLoop rawURL cs (c :: acc)
    else if c == ':' then
      if acc.isEmpty then none else some (acc.reverse, cs)
    else some ([], rawURL)

/-- Go `url.getScheme`. -/
def getScheme (rawURL : List Char) : Option (List Char × List Char) :=
  getSchemeLoop rawURL rawURL []

/-- Go `url.shouldEscape(c, encodeHost)`. -/
def shouldEscapeHost (c : Char) : Bool :=
  !(isAlpha c || isDigit c || "!$&()*+,;=:[]<>\"".data.contains c || c == Char.ofNat 39
    || "-_.~".data.contains c)

/-- The escape modes of Go `net/url` that parsing a request URI uses. -/
inductive Encoding where
  | encodePath
  | encodeUserPassword
  | encodeHost
  | encodeZone
deriving DecidableEq, Repr

def unhex (c : Char) : Nat :=
  if '0' ≤ c ∧ c ≤ '9' then c.toNat - '0'.toNat
  else if 'a' ≤ c ∧ c ≤ 'f' then c.toNat - 'a'.toNat + 10
  else if 'A' ≤ c ∧ c ≤ 'F' then c.toNat - 'A'.toNat + 10
  else 0

/-- The checking pass of Go `url.unescape`: whether the text unescapes without
error in the given mode. -/
def unescapeOk (mode : Encoding) : List Char → Bool
  | [] => true
  | '%' :: a :: b :: rest =>
    if !isHex a || !isHex b then false
    else if mode == .encodeHost && unhex a < 8 && !(a == '2' && b == '5') then false
    else if mode == .encodeZone && !(a == '2' && b == '5') && unhex a * 16 + unhex b != 0x20
        && shouldEscapeHost (Char.ofNat (unhex a * 16 + unhex b)) then false
    else unescapeOk mode rest
  | '%' :: _ => false
  | c :: rest =>
    if (mode == .encodeHost || mode == .encodeZone) && c.toNat < 0x80 && shouldEscapeHost c then false
    else unescapeOk mode rest

/-- Go `url.validOptionalPort`. -/
def validOptionalPort : List Char → Bool
  | [] => true
  | c :: rest => c == ':' && rest.all isDigit

/-- Go `url.validUserinfo`. -/
def validUserinfo (s : List Char) : Bool :=
  s.all fun r => isAlpha r || isDigit r || "-._:~!$&()*+,;=%@".data.contains r
    || r == Char.ofNat 39

/-- Text after the last occurrence of `sep`, from it on (`none`: no occurrence). -/
def fromLast (sep : Char) (s : List Char) : Option (List Char) :=
  match s.reverse.indexOf? sep with
  | none => none
  | some k => some (s.drop (s.length - 1 - k))

/-- Position of the first occurrence of the text `pat`. -/
def indexOfText (pat : List Char) : List Char → Nat → Option Nat
  | [], i => if pat.isEmpty then some i else none
  | c :: cs, i => if pat.isPrefixOf (c :: cs) then some i else indexOfText pat cs (i + 1)

/-- Go `url.parseHost` (Go 1.22): whether the host text is accepted.  A
bracketed host needs a closing bracket and a valid optional port after it;
this release does not yet require the bracketed text to be an IPv6 literal. -/
def parseHost (host : List Char) : Bool :=
  match host with
  | '[' :: _ =>
    match fromLast ']' host with
    | none => false
    | some closing =>
      -- `closing` starts at the last `]`
      let i := host.length - closing.length
      if !validOptionalPort (closing.drop 1) then false
      else
        match indexOfText "%25".data (host.take i) 0 with
        | some zone =>
          unescapeOk .encodeHost (host.take zone)
            && unescapeOk .encodeZone ((host.take i).drop zone)
            && unescapeOk .encodeHost closing
        | none => unescapeOk .encodeHost host
  | _ =>
    match fromLast ':' host with
    | some colonPort => if !validOptionalPort colonPort then false else unescapeOk .encodeHost host
    | none => unescapeOk .encodeHost host

/-- Go `url.parseAuthority`: whether user information and host are accepted. -/
def parseAuthority (authority : List Char) : Bool :=
  match fromLast '@' authority with
  | none => parseHost authority
  | some atHost =>
    if !parseHost (atHost.drop 1) then false
    else
      let userinfo := authority.take (authority.length - atHost.length)
      if !validUserinfo userinfo then false
      else if !userinfo.contains ':' then unescapeOk .encodeUserPassword userinfo
      else
        unescapeOk .encodeUserPassword (userinfo.takeWhile (· != ':'))
          && unescapeOk .encodeUserPassword ((userinfo.dropWhile (· != ':')).drop 1)

/-- Go `url.parse(rawURL, viaRequest = true)`, the body of
`url.ParseRequestURI`: the (lower-cased) scheme of the parsed URL, or `none`
when parsing fails. -/
def parseRequest (rawURL : List Char) : Option (List Char) :=
  if stringContainsCTLByte rawURL then none
  else if rawURL.isEmpty then none
  else if rawURL == ['*'] then some []
  else
    match getScheme rawURL with
    | none => none
    | some (scheme, rest) =>
      let scheme := scheme.map Char.toLower
      -- the query is cut off at the first `?`
      let rest := rest.takeWhile (· != '?')
      match rest with
      | '/' :: _ =>
        if !scheme.isEmpty && !"///".data.isPrefixOf rest && "//".data.isPrefixOf rest then
          let authority := (rest.drop 2).takeWhile (· != '/')
          let rest := (rest.drop 2).dropWhile (· != '/')
          if !parseAuthority authority then none
          else if !unescapeOk .encodePath rest then none
          else some scheme
        else if !unescapeOk .encodePath rest then none
        else some scheme
      | _ =>
        -- a rootless path is opaque with a scheme, an error without
        if !scheme.isEmpty then some scheme else none

/-- Go `url.ParseRequestURI`: the scheme of the parsed URL, or `none` on error. -/
def ParseRequestURI (s : String) : Option String :=
  (parseRequest s.data).map String.mk

/-- The text parses as an absolute URL: it parses and has a scheme
(`URL.IsAbs`). -/
def IsAbsoluteURL (s : String) : Bool :=
  match ParseRequestURI s with
  | some scheme => scheme != ""
  | none => false

/-! ## The build orchestrator -/

/-- `isValidIPAddress`. -/
def isValidIPAddress (s : String) : Bool := ParseIP s

/-- `isValidURL`. -/
def isValidURL (s : String) : Bool :=
  match ParseRequestURI s with
  | none => false
  | some _ => true

/-- The type `system.OSType` with its constants `system.Windows` and
`system.Linux`; any other value is `Other`. -/
inductive OSType where
  | Windows
  | Linux
  | Other (code : Nat)
deriving DecidableEq, Repr

/-- `handleOSType`. -/
def handleOSType : OSType → String
  | .Windows => "windows"
  | .Linux => "linux"
  | _ => "unknown"

/-- `runHidden`. -/
def runHidden (hidden : Bool) : String :=
  if hidden then "-H=windowsgui" else ""

/-- A value of `uuid.UUID`: sixteen bytes. -/
abbrev UUID := Fin 16 → Byte

/-- The table `hextable` of Go `encoding/hex`. -/
def hextable : List Char := "0123456789abcdef".data

/-- Go `hex.Encode` of one byte. -/
def encodeHexByte (b : Byte) : List Char :=
  [hextable.getD (b.val / 16) '0', hextable.getD (b.val % 16) '0']

/-- The method `UUID.String` of `github.com/google/uuid`:
`xxxxxxxx-xxxx-xxxx-xxxx-xxxxxxxxxxxx`. -/
def UUID.String (u : UUID) : String :=
  String.mk (encodeHexByte (u 0) ++ encodeHexByte (u 1) ++ encodeHexByte (u 2)
    ++ encodeHexByte (u 3) ++ ['-'] ++ encodeHexByte (u 4) ++ encodeHexByte (u 5) ++ ['-']
    ++ encodeHexByte (u 6) ++ encodeHexByte (u 7) ++ ['-'] ++ encodeHexByte (u 8)
    ++ encodeHexByte (u 9) ++ ['-'] ++ encodeHexByte (u 10) ++ encodeHexByte (u 11)
    ++ encodeHexByte (u 12) ++ encodeHexByte (u 13) ++ encodeHexByte (u 14)
    ++ encodeHexByte (u 15))

/-- The function `uuid.New` on sixteen random bytes: version 4, variant 10. -/
def uuidNew (random : Fin 16 → Byte) : UUID :=
  fun i =>
    if i = 6 then Fin.ofNat ((random 6).val % 16 + 64)
    else if i = 8 then Fin.ofNat ((random 8).val % 64 + 128)
    else random i

/-- Two draws of sixteen random bytes carry the same random bits of a
version-4 UUID: they agree outside bytes 6 and 8, in the low four bits of
byte 6 and in the low six bits of byte 8 (the remaining bits are overwritten
with version and variant). -/
def SameDraw (r r' : Fin 16 → Byte) : Prop :=
  (∀ i : Fin 16, i ≠ 6 → i ≠ 8 → r i = r' i) ∧
    (r 6).val % 16 = (r' 6).val % 16 ∧ (r 8).val % 64 = (r' 8).val % 64

/-- `buildFilename`; `random` is the randomness that `uuid.New` draws. -/
def buildFilename (random : Fin 16 → Byte) (os : OSType) (filename : String) : String :=
  let filename := if len (TrimSpace filename) ≤ 0 then (uuidNew random).String else filename
  match os with
  | .Windows => filename ++ ".exe"
  | _ => filename

/-- Go `fmt.Sprintf` for a format whose only verbs are `%s`, with string
operands: each `%s` is replaced by the next operand, unchanged. -/
def sprintfS : List Char → List String → List Char
  | [], _ => []
  | '%' :: 's' :: rest, a :: as => a.data ++ sprintfS rest as
  | c :: rest, as => c :: sprintfS rest as

def Sprintf (format : String) (operands : List String) : String :=
  String.mk (sprintfS format.data operands)

/-- The constant `buildStr` of `BuildClient`. -/
def buildStr : String :=
  "GO_ENABLED=1 GOOS=%s GOARCH=amd64 go build -ldflags '%s -s -w -X main.Version=%s -X main.ServerPort=%s -X main.ServerAddress=%s -X main.Token=%s -extldflags \"-static\"' -o ../temp/%s main.go"

structure AuthConfig where
  SecretKey : String
deriving DecidableEq, Repr

/-- The receiver `clientService` and the packages `BuildClient` calls. -/
structure BuildCollaborators where
  AppVersion : String
  /-- The helper `utils.NormalizeString`. -/
  NormalizeString : String → Except GoError String
  /-- The method `AuthService.GetAuthConfig`. -/
  GetAuthConfig : Except GoError AuthConfig
  /-- The function `jwt.NewToken`. -/
  NewToken : String → String → Except GoError String
  /-- The constant `jwt.IdentityDefaultUser`. -/
  IdentityDefaultUser : String
  /-- The random bytes drawn by `uuid.New`. -/
  random : Fin 16 → Byte
  /-- The child process: `cmd.CombinedOutput()` for the argument vector and
  working directory, as captured output and process error (`none`: exit 0). -/
  CombinedOutput : List String → String → String × Option GoError

structure BuildClientBinaryInput where
  ServerAddress : String
  ServerPort : String
  OSTarget : OSType
  Filename : String
  RunHidden : Bool
deriving DecidableEq, Repr

/-- The errors `BuildClient` returns: the sentinel of package `client`, an
error passed on from a collaborator, or the wrapped build failure. -/
inductive BuildError where
  | ErrInvalidServerAddress
  | normalize (err : GoError)
  | token (err : GoError)
  | build (err : GoError)
deriving DecidableEq, Repr

/-- `clientService.GenerateNewToken`. -/
def GenerateNewToken (b : BuildCollaborators) : Except GoError String :=
  match b.GetAuthConfig with
  | .error err => .error err
  | .ok config => b.NewToken config.SecretKey b.IdentityDefaultUser

/-- A run of `BuildClient`: the values returned, whether a token was
requested, and the shell command handed to `sh -c` (`none`: no process was
started). -/
structure BuildRun where
  filename : String
  err : Option BuildError
  tokenRequested : Bool
  command : Option String
deriving DecidableEq, Repr

/-- `clientService.BuildClient`. -/
def BuildClient (b : BuildCollaborators) (input : BuildClientBinaryInput) : BuildRun :=
  if !isValidIPAddress input.ServerAddress && !isValidURL input.ServerAddress then
    { filename := "", err := some .ErrInvalidServerAddress, tokenRequested := false,
      command := none }
  else
    match b.NormalizeString input.Filename with
    | .error err =>
      { filename := "", err := some (.normalize err), tokenRequested := false, command := none }
    | .ok newFilename =>
      match GenerateNewToken b with
      | .error err =>
        { filename := "", err := some (.token err), tokenRequested := true, command := none }
      | .ok newToken =>
        let newFilename := buildFilename b.random input.OSTarget newFilename
        let buildCmd := Sprintf buildStr [handleOSType input.OSTarget, runHidden input.RunHidden,
          b.AppVersion, input.ServerPort, input.ServerAddress, newToken, newFilename]
        match b.CombinedOutput ["sh", "-c", buildCmd] "client/" with
        | (outputErr, some err) =>
          { filename := "",
            err := some (.build
              { message := err.message ++ ":" ++ outputErr, wrapped := some err.message }),
            tokenRequested := true, command := some buildCmd }
        | (_, none) =>
          { filename := newFilename, err := none, tokenRequested := true,
            command := some buildCmd }

/-- The shell command `BuildClient` composes for an accepted input. -/
def composed (b : BuildCollaborators) (input : BuildClientBinaryInput)
    (normal token : String) : String :=
  Sprintf buildStr [handleOSType input.OSTarget, runHidden input.RunHidden, b.AppVersion,
    input.ServerPort, input.ServerAddress, token, buildFilename b.random input.OSTarget normal]

/-- The number of single quotes in a text. -/
def countQuotes (s : String) : Nat := s.data.count (Char.ofNat 39)

/-- Collaborators for the examples: the filename is already normal, the token
issuer answers `token`, and the child process ends as given. -/
def exampleBuild (output : String) (exit : Option GoError) : BuildCollaborators where
  AppVersion := "v5.0.0"
  NormalizeString := fun s => .ok s
  GetAuthConfig := .ok { SecretKey := "secret" }
  NewToken := fun _ _ => .ok "token"
  IdentityDefaultUser := "default"
  random := fun i => Fin.ofNat (17 * i.val)
  CombinedOutput := fun _ _ => (output, exit)

/-! ## Lemmas on strings -/

theorem len_eq_zero_iff (s : String) : len s = 0 ↔ s.data = [] := by
  cases s with
  | mk l =>
    cases l with
    | nil => simp [len, String.utf8ByteSize, String.utf8ByteSize.go]
    | cons a t =>
      have := Char.utf8Size_pos a
      simp [len, String.utf8ByteSize, String.utf8ByteSize.go]
      omega

theorem len_TrimSpace_eq_zero_iff (s : String) :
    len (TrimSpace s) = 0 ↔ ∀ ch ∈ s.data, isSpace ch = true := by
  rw [len_eq_zero_iff]
  simp only [TrimSpace, List.reverse_eq_nil_iff, List.dropWhile_eq_nil_iff, List.mem_reverse]
  constructor
  · intro h
    by_contra hne
    push_neg at hne
    obtain ⟨x, hx, hsp⟩ := hne
    -- the first non-space character survives `dropWhile`
    have hne' : s.data.dropWhile isSpace ≠ [] := by
      intro h0
      rw [List.dropWhile_eq_nil_iff] at h0
      exact hsp (h0 x hx)
    obtain ⟨y, ys, hy⟩ := List.exists_cons_of_ne_nil hne'
    have hhead : isSpace y = false := by
      have := List.head_dropWhile_not isSpace s.data hne'
      simpa [hy] using this
    have hmem : y ∈ s.data.dropWhile isSpace := by rw [hy]; exact List.mem_cons_self _ _
    have := h y hmem
    rw [hhead] at this
    exact Bool.noConfusion this
  · intro h x hx
    exact h x ((List.dropWhile_sublist isSpace).subset hx)

/-! ## Lemmas on the poll loop -/

theorem HandleResponse_error_request (c : Collaborators) (d : Data) (e : GoError)
    (h : HandleResponse c d = .error e) : d.Request = "screenshot" := by
  unfold HandleResponse at h
  split at h
  · assumption
  · cases h

/-- Shape of every run of the poll loop: it is still blocked after reads that
all show no response, or it faulted on a nil record, or it stopped at the
first read that shows a response and handed that record to `HandleResponse`. -/
theorem pollLoop_cases (c : Collaborators) (addr req : String) :
    ∀ (ext : List (Store → Store)) (s : Store),
      ((pollLoop c addr req s ext).exit = .blocked ∧
        (pollLoop c addr req s ext).reads.length = ext.length ∧
        ∀ x ∈ (pollLoop c addr req s ext).reads, Waiting addr x) ∨
      ((pollLoop c addr req s ext).exit = .nilRecord ∧
        ∃ pre, (pollLoop c addr req s ext).reads = pre ++ [(addr, none)] ∧
          ∀ x ∈ pre, Waiting addr x) ∨
      (∃ pre got, (pollLoop c addr req s ext).reads = pre ++ [(addr, some got)] ∧
        (∀ x ∈ pre, Waiting addr x) ∧ got.HasResponse = true ∧
        (pollLoop c addr req s ext).exit =
          .responded (HandleResponse c { got with Request := req }).toOption ∧
        (pollLoop c addr req s ext).encoded =
          if req = "screenshot" then some got.Response else none) := by
  intro ext
  induction ext with
  | nil => intro s; left; simp [pollLoop]
  | cons step ext ih =>
    intro s
    unfold pollLoop
    simp only
    cases hget : (step s).Get addr with
    | none =>
      right; left
      exact ⟨rfl, [], rfl, by simp⟩
    | some got =>
      simp only
      split
      · next hresp =>
        have hresp' : got.HasResponse = true := hresp
        right; right
        refine ⟨[], got, ?_⟩
        split
        · next pd hh =>
          exact ⟨rfl, by simp, hresp', by rw [hh]; rfl, rfl⟩
        · next e hh =>
          have := HandleResponse_error_request c _ e hh
          simp only at this
          exact ⟨rfl, by simp, hresp', by rw [hh]; rfl, by simp [this]⟩
      · next hresp =>
        have hresp' : got.HasResponse = false := by simpa using hresp
        have hw : Waiting addr (addr, some got) := ⟨got, rfl, hresp'⟩
        rcases ih (Store.Set (step s) addr { got with Request := req }) with
          ⟨h1, h2, h3⟩ | ⟨h1, pre, h2, h3⟩ | ⟨pre, g, h1, h2, h3, h4, h5⟩
        · left
          refine ⟨h1, by simp only [List.length_cons, h2], ?_⟩
          intro x hx
          rcases List.mem_cons.mp hx with rfl | hx
          · exact hw
          · exact h3 x hx
        · right; left
          refine ⟨h1, (addr, some got) :: pre, by simp only [h2, List.cons_append], ?_⟩
          intro x hx
          rcases List.mem_cons.mp hx with rfl | hx
          · exact hw
          · exact h3 x hx
        · right; right
          refine ⟨(addr, some got) :: pre, g, by simp only [h1, List.cons_append], ?_, h3, h4, h5⟩
          intro x hx
          rcases List.mem_cons.mp hx with rfl | hx
          · exact hw
          · exact h2 x hx

theorem not_waiting_none (addr : String) : ¬ Waiting addr (addr, none) := by
  rintro ⟨d, h, _⟩
  cases h

theorem not_waiting_of_response (addr : String) (got : Data) (h : got.HasResponse = true) :
    ¬ Waiting addr (addr, some got) := by
  rintro ⟨d, hd, hf⟩
  cases hd
  rw [h] at hf
  cases hf

/-- A run whose last read shows a response stopped there. -/
theorem pollLoop_of_last (c : Collaborators) (addr req : String) (ext : List (Store → Store))
    (s : Store) (key : String) (got : Data)
    (hlast : (pollLoop c addr req s ext).reads.getLast? = some (key, some got))
    (hresp : got.HasResponse = true) :
    (pollLoop c addr req s ext).exit =
        .responded (HandleResponse c { got with Request := req }).toOption ∧
      (pollLoop c addr req s ext).encoded =
        (if req = "screenshot" then some got.Response else none) ∧ key = addr := by
  rcases pollLoop_cases c addr req ext s with
    ⟨_, _, h3⟩ | ⟨_, pre, h2, _⟩ | ⟨pre, g, h1, _, _, h4, h5⟩
  · have hmem := List.mem_of_getLast?_eq_some hlast
    obtain ⟨d, hd, hf⟩ := h3 _ hmem
    cases hd
    rw [hresp] at hf
    cases hf
  · rw [h2, List.getLast?_concat] at hlast
    cases hlast
  · rw [h1, List.getLast?_concat] at hlast
    cases hlast
    exact ⟨h4, h5, rfl⟩

/-! ## The dispatcher: claims -/

theorem respond_eq_polling_iff (c : Collaborators) (e : PollExit) :
    respond c e = .polling ↔ e = .blocked := by
  cases e with
  | blocked => simp [respond]
  | nilRecord => simp [respond]
  | responded pd =>
    cases pd with
    | none => simp [respond]
    | some d =>
      simp only [respond]
      split
      · simp
      · split <;> simp

theorem SendCommand_ok (c : Collaborators) (input : SendCommandInput) (store : Store)
    (ext : List (Store → Store)) (addr : String)
    (hdec : c.DecodeBase64 input.MacAddress = .ok addr) :
    SendCommand c input store ext =
      { outcome := respond c
          (pollLoop c addr input.Request (store.Set addr { Request := input.Request }) ext).exit,
        store :=
          if (pollLoop c addr input.Request (store.Set addr { Request := input.Request }) ext).exit
              = .blocked then
            (pollLoop c addr input.Request (store.Set addr { Request := input.Request }) ext).store
          else
            ((pollLoop c addr input.Request (store.Set addr { Request := input.Request })
              ext).store).Remove addr,
        reads := (pollLoop c addr input.Request (store.Set addr { Request := input.Request }) ext).reads,
        encoded :=
          (pollLoop c addr input.Request (store.Set addr { Request := input.Request }) ext).encoded } := by
  unfold SendCommand
  rw [hdec]

/-- C3: once a call of SendCommand that decoded its identifier has ended (by
returning a result or an error, or by a fault), the store holds no record
under the decoded identifier: the deferred removal ran. -/
theorem SendCommand_removes_record (c : Collaborators) (input : SendCommandInput)
    (store : Store) (ext : List (Store → Store)) (addr : String)
    (hdec : c.DecodeBase64 input.MacAddress = .ok addr)
    (hend : (SendCommand c input store ext).outcome ≠ .polling) :
    (SendCommand c input store ext).store.Get addr = none := by
  rw [SendCommand_ok c input store ext addr hdec] at hend ⊢
  simp only [ne_eq, respond_eq_polling_iff] at hend
  simp [hend, Store.Get, Store.Remove]

theorem SendCommand_removes_record_witness :
    -- successful result
    ((SendCommand exampleCollaborators { MacAddress := "YWdlbnQ=", Request := "shell" } emptyStore
        [id, deliver "agent" (asciiBytes "done") false]).outcome =
        .returned { Response := "done" } none ∧
      (SendCommand exampleCollaborators { MacAddress := "YWdlbnQ=", Request := "shell" } emptyStore
        [id, deliver "agent" (asciiBytes "done") false]).store.Get "agent" = none) ∧
    -- remote error
    ((SendCommand exampleCollaborators { MacAddress := "YWdlbnQ=", Request := "shell" } emptyStore
        [deliver "agent" (asciiBytes "permission denied") true]).outcome =
        .returned { Response := "" } (some { message := "permission denied" }) ∧
      (SendCommand exampleCollaborators { MacAddress := "YWdlbnQ=", Request := "shell" } emptyStore
        [deliver "agent" (asciiBytes "permission denied") true]).store.Get "agent" = none) ∧
    -- post-processing failure
    ((SendCommand exampleCollaborators { MacAddress := "YWdlbnQ=", Request := "screenshot" }
        emptyStore [deliver "agent" [] false]).outcome = .panicked ∧
      (SendCommand exampleCollaborators { MacAddress := "YWdlbnQ=", Request := "screenshot" }
        emptyStore [deliver "agent" [] false]).store.Get "agent" = none) ∧
    -- fault on a record that has gone
    ((SendCommand exampleCollaborators { MacAddress := "YWdlbnQ=", Request := "shell" } emptyStore
        [overwrite "agent" none]).outcome = .panicked ∧
      (SendCommand exampleCollaborators { MacAddress := "YWdlbnQ=", Request := "shell" } emptyStore
        [overwrite "agent" none]).store.Get "agent" = none) :=
  ⟨⟨by decide,
      SendCommand_removes_record exampleCollaborators _ emptyStore _ "agent" rfl (by decide)⟩,
    ⟨by decide,
      SendCommand_removes_record exampleCollaborators _ emptyStore _ "agent" rfl (by decide)⟩,
    ⟨by decide,
      SendCommand_removes_record exampleCollaborators _ emptyStore _ "agent" rfl (by decide)⟩,
    ⟨by decide,
      SendCommand_removes_record exampleCollaborators _ emptyStore _ "agent" rfl (by decide)⟩⟩

/-- C4: after the identifier decodes, every poll read is made under the
decoded identifier; as long as all reads show hasResponse = false the call is
still polling (one read per sleep, not returned); and when the call returned,
its last read is the first one that showed hasResponse = true, the record of
that read is what HandleResponse received (with the request re-stamped), and
the value returned is computed from the post-processed record. -/
theorem SendCommand_waits_for_response (c : Collaborators) (input : SendCommandInput)
    (store : Store) (ext : List (Store → Store)) (addr : String)
    (hdec : c.DecodeBase64 input.MacAddress = .ok addr) :
    (∀ x ∈ (SendCommand c input store ext).reads, x.1 = addr) ∧
    ((∀ x ∈ (SendCommand c input store ext).reads, Waiting addr x) →
      (SendCommand c input store ext).outcome = .polling ∧
      (SendCommand c input store ext).reads.length = ext.length) ∧
    (∀ out err, (SendCommand c input store ext).outcome = .returned out err →
      ∃ pre got payloadData,
        (SendCommand c input store ext).reads = pre ++ [(addr, some got)] ∧
        (∀ x ∈ pre, Waiting addr x) ∧ got.HasResponse = true ∧
        HandleResponse c { got with Request := input.Request } = .ok payloadData ∧
        (input.Request ≠ "screenshot" → payloadData.Response = got.Response) ∧
        (SendCommand c input store ext).encoded =
          (if input.Request = "screenshot" then some got.Response else none) ∧
        respond c (.responded (some payloadData)) = .returned out err) := by
  rw [SendCommand_ok c input store ext addr hdec]
  simp only
  rcases pollLoop_cases c addr input.Request ext (store.Set addr { Request := input.Request }) with
    ⟨h1, h2, h3⟩ | ⟨h1, pre, h2, h3⟩ | ⟨pre, got, h1, h2, h3, h4, h5⟩
  · refine ⟨?_, ?_, ?_⟩
    · intro x hx
      obtain ⟨d, hd, _⟩ := h3 x hx
      rw [hd]
    · intro _
      exact ⟨by rw [h1]; rfl, h2⟩
    · intro out err h
      rw [h1] at h
      cases h
  · refine ⟨?_, ?_, ?_⟩
    · intro x hx
      rw [h2] at hx
      rcases List.mem_append.mp hx with hx | hx
      · obtain ⟨d, hd, _⟩ := h3 x hx
        rw [hd]
      · rw [List.mem_singleton.mp hx]
    · intro hall
      exact absurd (hall _ (by rw [h2]; simp)) (not_waiting_none addr)
    · intro out err h
      rw [h1] at h
      cases h
  · refine ⟨?_, ?_, ?_⟩
    · intro x hx
      rw [h1] at hx
      rcases List.mem_append.mp hx with hx | hx
      · obtain ⟨d, hd, _⟩ := h2 x hx
        rw [hd]
      · rw [List.mem_singleton.mp hx]
    · intro hall
      exact absurd (hall _ (by rw [h1]; simp)) (not_waiting_of_response addr got h3)
    · intro out err h
      rw [h4] at h
      cases hh : HandleResponse c { got with Request := input.Request } with
      | error e =>
        rw [hh] at h
        cases h
      | ok pd =>
        rw [hh] at h
        refine ⟨pre, got, pd, h1, h2, h3, hh, ?_, h5, h⟩
        intro hne
        have hh2 := hh
        unfold HandleResponse at hh2
        simp only [hne, if_false] at hh2
        cases hh2
        rfl

theorem SendCommand_waits_for_response_witness :
    (SendCommand exampleCollaborators { MacAddress := "YWdlbnQ=", Request := "shell" } emptyStore
        [id, id, id]).outcome = .polling ∧
    ∃ pre got payloadData,
      (SendCommand exampleCollaborators { MacAddress := "YWdlbnQ=", Request := "shell" } emptyStore
        [id, deliver "agent" (asciiBytes "done") false, id]).reads = pre ++ [("agent", some got)] ∧
      (∀ x ∈ pre, Waiting "agent" x) ∧ got.HasResponse = true ∧
      HandleResponse exampleCollaborators { got with Request := "shell" } = .ok payloadData ∧
      respond exampleCollaborators (.responded (some payloadData)) =
        .returned { Response := "done" } none := by
  constructor
  · refine ((SendCommand_waits_for_response exampleCollaborators
      { MacAddress := "YWdlbnQ=", Request := "shell" } emptyStore [id, id, id] "agent" rfl).2.1 ?_).1
    intro x hx
    have hx' : x = ("agent", some { Request := "shell" }) := by
      have hr : (SendCommand exampleCollaborators { MacAddress := "YWdlbnQ=", Request := "shell" }
          emptyStore [id, id, id]).reads = List.replicate 3 ("agent", some { Request := "shell" }) := by
        decide
      rw [hr] at hx
      exact List.eq_of_mem_replicate hx
    exact ⟨_, hx', rfl⟩
  · obtain ⟨pre, got, pd, h1, h2, h3, h4, _, _, h7⟩ :=
      (SendCommand_waits_for_response exampleCollaborators
        { MacAddress := "YWdlbnQ=", Request := "shell" } emptyStore
        [id, deliver "agent" (asciiBytes "done") false, id] "agent" rfl).2.2
        { Response := "done" } none (by decide)
    exact ⟨pre, got, pd, h1, h2, h3, h4, h7⟩

theorem HandleResponse_HasError (c : Collaborators) (d pd : Data)
    (h : HandleResponse c d = .ok pd) : pd.HasError = d.HasError := by
  unfold HandleResponse at h
  split at h
  · split at h
    · cases h
    · cases h; rfl
  · cases h; rfl

/-- C5: when the first read that shows a response has hasError = false and
post-processing succeeds, SendCommand returns the NoContent sentinel with no
error if the post-processed payload text is empty or all white space, and the
payload text unchanged with no error otherwise; with a non-empty sentinel the
returned text is never the empty string. -/
theorem SendCommand_no_content (c : Collaborators) (input : SendCommandInput)
    (store : Store) (ext : List (Store → Store)) (addr : String) (got payloadData : Data)
    (hdec : c.DecodeBase64 input.MacAddress = .ok addr)
    (hlast : (SendCommand c input store ext).reads.getLast? = some (addr, some got))
    (hresp : got.HasResponse = true) (herr : got.HasError = false)
    (hpost : HandleResponse c { got with Request := input.Request } = .ok payloadData) :
    ((∀ ch ∈ (c.ByteToString payloadData.Response).data, isSpace ch = true) →
      (SendCommand c input store ext).outcome = .returned { Response := c.NoContent } none) ∧
    ((¬ ∀ ch ∈ (c.ByteToString payloadData.Response).data, isSpace ch = true) →
      (SendCommand c input store ext).outcome =
        .returned { Response := c.ByteToString payloadData.Response } none) ∧
    (c.NoContent ≠ "" → ∀ out err,
      (SendCommand c input store ext).outcome = .returned out err →
        err = none ∧ out.Response ≠ "") := by
  rw [SendCommand_ok c input store ext addr hdec] at hlast ⊢
  simp only at hlast ⊢
  obtain ⟨hexit, _, _⟩ := pollLoop_of_last c addr input.Request ext _ addr got hlast hresp
  rw [hexit, hpost]
  have he : payloadData.HasError = false := by
    rw [HandleResponse_HasError c _ _ hpost]; exact herr
  simp only [Except.toOption, respond, he, Bool.false_eq_true, if_false, beq_iff_eq,
    len_TrimSpace_eq_zero_iff]
  refine ⟨?_, ?_, ?_⟩
  · intro h
    rw [if_pos h]
  · intro h
    rw [if_neg h]
  · intro hnc out err h
    split at h
    · cases h
      exact ⟨rfl, hnc⟩
    · next hns =>
      cases h
      refine ⟨rfl, ?_⟩
      intro h0
      have h0' : c.ByteToString payloadData.Response = "" := h0
      apply hns
      intro ch hch
      rw [h0'] at hch
      cases hch

theorem SendCommand_no_content_witness :
    (SendCommand exampleCollaborators { MacAddress := "YWdlbnQ=", Request := "shell" } emptyStore
        [id, deliver "agent" (asciiBytes " \t\n") false]).outcome =
      .returned { Response := "[no content]" } none ∧
    (SendCommand exampleCollaborators { MacAddress := "YWdlbnQ=", Request := "shell" } emptyStore
        [id, deliver "agent" (asciiBytes " up 3 days ") false]).outcome =
      .returned { Response := " up 3 days " } none :=
  ⟨(SendCommand_no_content exampleCollaborators
      { MacAddress := "YWdlbnQ=", Request := "shell" } emptyStore
      [id, deliver "agent" (asciiBytes " \t\n") false] "agent"
      { Request := "shell", Response := asciiBytes " \t\n", HasResponse := true }
      { Request := "shell", Response := asciiBytes " \t\n", HasResponse := true }
      rfl (by decide) rfl rfl rfl).1 (by decide),
   (SendCommand_no_content exampleCollaborators
      { MacAddress := "YWdlbnQ=", Request := "shell" } emptyStore
      [id, deliver "agent" (asciiBytes " up 3 days ") false] "agent"
      { Request := "shell", Response := asciiBytes " up 3 days ", HasResponse := true }
      { Request := "shell", Response := asciiBytes " up 3 days ", HasResponse := true }
      rfl (by decide) rfl rfl rfl).2.1 (by decide)⟩

/-! ### Remote errors and the format string -/

theorem doPrintf_of_no_percent : ∀ (l : List Char) (fuel : Nat),
    l.length ≤ fuel → (∀ ch ∈ l, ch ≠ '%') → doPrintf fuel l = l := by
  intro l
  induction l with
  | nil => intro fuel _ _; cases fuel <;> rfl
  | cons a t ih =>
    intro fuel hf hno
    cases fuel with
    | zero => simp at hf
    | succ n =>
      have ha : a ≠ '%' := hno a (List.mem_cons_self _ _)
      have ht : ∀ ch ∈ t, ch ≠ '%' := fun ch h => hno ch (List.mem_cons_of_mem _ h)
      simp only [doPrintf, beq_iff_eq, ha, if_false]
      rw [ih n (by simpa using hf) ht]

/-- A payload text without a percent sign is an error message verbatim. -/
theorem Errorf0_of_no_percent (p : String) (h : ∀ ch ∈ p.data, ch ≠ '%') :
    (Errorf0 p).message = p := by
  simp only [Errorf0, Sprintf0]
  rw [doPrintf_of_no_percent p.data _ (Nat.le_refl _) h]

/-- C1: at the delivered response with hasError = true and payload text
`100%`, SendCommand returns an empty output and an error whose message is
`100%!(NOVERB)`: the payload is used as a format string, so the message is
not the payload character for character. -/
theorem SendCommand_remote_error_format_string :
    exampleCollaborators.ByteToString (asciiBytes "100%") = "100%" ∧
    (SendCommand exampleCollaborators { MacAddress := "YWdlbnQ=", Request := "shell" } emptyStore
        [id, deliver "agent" (asciiBytes "100%") true]).outcome =
      .returned { Response := "" } (some { message := "100%!(NOVERB)" }) ∧
    (SendCommand exampleCollaborators { MacAddress := "YWdlbnQ=", Request := "shell" } emptyStore
        [id, deliver "agent" (asciiBytes "permission denied") true]).outcome =
      .returned { Response := "" } (some { message := "permission denied" }) := by
  decide

/-- C2: for the request `screenshot` and a delivered payload that the PNG
encoder rejects with an error, SendCommand does not return that error: the
error of HandleResponse is discarded and the nil record is dereferenced, so
the call ends in a panic. -/
theorem SendCommand_screenshot_failure_panics :
    exampleCollaborators.WritePNG [] = .error { message := "image: unknown format" } ∧
    HandleResponse exampleCollaborators
        { Request := "screenshot", Response := [], HasResponse := true } =
      .error { message := "image: unknown format" } ∧
    (SendCommand exampleCollaborators { MacAddress := "YWdlbnQ=", Request := "screenshot" }
        emptyStore [id, deliver "agent" [] false]).outcome = .panicked :=
  ⟨rfl, rfl, by decide⟩

/-! ### The re-stamp of the request -/

theorem respond_HandleResponse_congr (c : Collaborators) (d d' : Data)
    (hR : d.Response = d'.Response) (hE : d.HasError = d'.HasError)
    (hS : d.Request = "screenshot" ↔ d'.Request = "screenshot") :
    respond c (.responded (HandleResponse c d).toOption) =
      respond c (.responded (HandleResponse c d').toOption) := by
  unfold HandleResponse
  by_cases h : d.Request = "screenshot"
  · have h' := hS.mp h
    rw [if_pos h, if_pos h', hR]
    cases c.WritePNG d'.Response with
    | error e => rfl
    | ok file => simp [Except.toOption, respond, hE]
  · have h' : ¬ d'.Request = "screenshot" := fun x => h (hS.mpr x)
    rw [if_neg h, if_neg h']
    simp [Except.toOption, respond, hE, hR]

theorem pollLoop_exit_responded (c : Collaborators) (addr req : String) (s : Store)
    (step : Store → Store) (ext : List (Store → Store)) (got : Data)
    (hget : (step s).Get addr = some got) (hresp : got.HasResponse = true) :
    (pollLoop c addr req s (step :: ext)).exit =
        .responded (HandleResponse c { got with Request := req }).toOption ∧
      (pollLoop c addr req s (step :: ext)).reads = [(addr, some got)] ∧
      (pollLoop c addr req s (step :: ext)).encoded =
        if req = "screenshot" then some got.Response else none := by
  unfold pollLoop
  simp only [hget]
  split
  · split
    · next pd hh => exact ⟨by rw [hh]; rfl, rfl, rfl⟩
    · next e hh =>
      have := HandleResponse_error_request c _ e hh
      simp only at this
      exact ⟨by rw [hh]; rfl, rfl, by simp [this]⟩
  · next hn => exact absurd hresp hn

theorem pollLoopNoRestamp_exit_responded (c : Collaborators) (addr : String) (s : Store)
    (step : Store → Store) (ext : List (Store → Store)) (got : Data)
    (hget : (step s).Get addr = some got) (hresp : got.HasResponse = true) :
    (pollLoopNoRestamp c addr s (step :: ext)).exit =
        .responded (HandleResponse c got).toOption ∧
      (pollLoopNoRestamp c addr s (step :: ext)).reads = [(addr, some got)] ∧
      (pollLoopNoRestamp c addr s (step :: ext)).encoded =
        if got.Request = "screenshot" then some got.Response else none := by
  unfold pollLoopNoRestamp
  simp only [hget]
  split
  · split
    · next pd hh => exact ⟨by rw [hh]; rfl, rfl, rfl⟩
    · next e hh =>
      have := HandleResponse_error_request c _ e hh
      exact ⟨by rw [hh]; rfl, rfl, by simp [this]⟩
  · next hn => exact absurd hresp hn

theorem pollLoop_waiting (c : Collaborators) (addr req : String) (s : Store)
    (step : Store → Store) (ext : List (Store → Store)) (got : Data)
    (hget : (step s).Get addr = some got) (hresp : got.HasResponse = false) :
    pollLoop c addr req s (step :: ext) =
      { pollLoop c addr req ((step s).Set addr { got with Request := req }) ext with
        reads := (addr, some got) ::
          (pollLoop c addr req ((step s).Set addr { got with Request := req }) ext).reads } := by
  conv => lhs; unfold pollLoop
  simp only [hget]
  split
  · next h =>
    have h' : got.HasResponse = true := h
    rw [hresp] at h'
    cases h'
  · rfl

theorem pollLoopNoRestamp_waiting (c : Collaborators) (addr : String) (s : Store)
    (step : Store → Store) (ext : List (Store → Store)) (got : Data)
    (hget : (step s).Get addr = some got) (hresp : got.HasResponse = false) :
    pollLoopNoRestamp c addr s (step :: ext) =
      { pollLoopNoRestamp c addr (step s) ext with
        reads := (addr, some got) :: (pollLoopNoRestamp c addr (step s) ext).reads } := by
  conv => lhs; unfold pollLoopNoRestamp
  simp only [hget]
  split
  · next h =>
    rw [hresp] at h
    cases h
  · rfl

theorem pollLoop_nil_record (c : Collaborators) (addr req : String) (s : Store)
    (step : Store → Store) (ext : List (Store → Store))
    (hget : (step s).Get addr = none) :
    (pollLoop c addr req s (step :: ext)).exit = .nilRecord ∧
      (pollLoop c addr req s (step :: ext)).reads = [(addr, none)] ∧
      (pollLoop c addr req s (step :: ext)).encoded = none := by
  unfold pollLoop
  simp [hget]

theorem pollLoopNoRestamp_nil_record (c : Collaborators) (addr : String) (s : Store)
    (step : Store → Store) (ext : List (Store → Store))
    (hget : (step s).Get addr = none) :
    (pollLoopNoRestamp c addr s (step :: ext)).exit = .nilRecord ∧
      (pollLoopNoRestamp c addr s (step :: ext)).reads = [(addr, none)] ∧
      (pollLoopNoRestamp c addr s (step :: ext)).encoded = none := by
  unfold pollLoopNoRestamp
  simp [hget]

theorem scripted_cons (addr : String) (r : Option Data) (rest : List (Option Data)) :
    scripted addr (r :: rest) = overwrite addr r :: scripted addr rest :=
  rfl

theorem scripted_step_Get (addr : String) (r : Option Data) (t : Store) :
    (overwrite addr r t).Get addr = r := by
  simp [Store.Get, overwrite]

/-- On a scripted sequence of records the two poll loops agree, provided the
record that ends the polling is a screenshot record exactly when the command
is. -/
theorem pollLoop_scripted_eq (c : Collaborators) (addr req : String) :
    ∀ (records : List (Option Data)) (s s' : Store),
      (∀ got, records.find? endsPolling = some (some got) →
        (got.Request = "screenshot" ↔ req = "screenshot")) →
      respond c (pollLoop c addr req s (scripted addr records)).exit =
          respond c (pollLoopNoRestamp c addr s' (scripted addr records)).exit ∧
        (pollLoop c addr req s (scripted addr records)).reads =
          (pollLoopNoRestamp c addr s' (scripted addr records)).reads ∧
        (pollLoop c addr req s (scripted addr records)).encoded =
          (pollLoopNoRestamp c addr s' (scripted addr records)).encoded := by
  intro records
  induction records with
  | nil => intro s s' _; simp [scripted, pollLoop, pollLoopNoRestamp]
  | cons r rest ih =>
    intro s s' hcond
    rw [scripted_cons]
    cases r with
    | none =>
      obtain ⟨a1, a2, a3⟩ := pollLoop_nil_record c addr req s _ (scripted addr rest)
        (scripted_step_Get addr none s)
      obtain ⟨b1, b2, b3⟩ := pollLoopNoRestamp_nil_record c addr s' _ (scripted addr rest)
        (scripted_step_Get addr none s')
      rw [a1, a2, a3, b1, b2, b3]
      exact ⟨rfl, rfl, rfl⟩
    | some got =>
      by_cases hresp : got.HasResponse = true
      · have hiff := hcond got (by simp [List.find?, endsPolling, hresp])
        obtain ⟨a1, a2, a3⟩ := pollLoop_exit_responded c addr req s _ (scripted addr rest) got
          (scripted_step_Get addr (some got) s) hresp
        obtain ⟨b1, b2, b3⟩ := pollLoopNoRestamp_exit_responded c addr s' _ (scripted addr rest)
          got (scripted_step_Get addr (some got) s') hresp
        rw [a1, a2, a3, b1, b2, b3]
        refine ⟨respond_HandleResponse_congr c _ _ rfl rfl ?_, rfl, ?_⟩
        · exact hiff.symm
        · by_cases hr : req = "screenshot"
          · rw [if_pos hr, if_pos (hiff.mpr hr)]
          · rw [if_neg hr, if_neg (fun x => hr (hiff.mp x))]
      · have hresp' : got.HasResponse = false := by simpa using hresp
        have hcond' : ∀ g, rest.find? endsPolling = some (some g) →
            (g.Request = "screenshot" ↔ req = "screenshot") := by
          intro g hgf
          apply hcond g
          simp [List.find?, endsPolling, hresp', hgf]
        rw [pollLoop_waiting c addr req s _ (scripted addr rest) got
            (scripted_step_Get addr (some got) s) hresp',
          pollLoopNoRestamp_waiting c addr s' _ (scripted addr rest) got
            (scripted_step_Get addr (some got) s') hresp']
        obtain ⟨i1, i2, i3⟩ := ih
          ((overwrite addr (some got) s).Set addr { got with Request := req })
          (overwrite addr (some got) s') hcond'
        exact ⟨i1, by simp only [i2], i3⟩

/-- C10 (as stated, refuted): for the command `screenshot` and a store that
returns a responded record whose request field is empty, SendCommand encodes
the payload and returns the file name, while the variant without the re-stamp
returns the raw payload: the re-stamped request is used by HandleResponse. -/
theorem SendCommand_restamp_is_used :
    (SendCommand exampleCollaborators { MacAddress := "YWdlbnQ=", Request := "screenshot" }
        emptyStore (scripted "agent" [some { Response := [65], HasResponse := true }])).outcome =
      .returned { Response := "shot.png" } none ∧
    (SendCommandNoRestamp exampleCollaborators { MacAddress := "YWdlbnQ=", Request := "screenshot" }
        emptyStore (scripted "agent" [some { Response := [65], HasResponse := true }])).outcome =
      .returned { Response := "A" } none ∧
    (SendCommand exampleCollaborators { MacAddress := "YWdlbnQ=", Request := "screenshot" }
        emptyStore (scripted "agent" [some { Response := [65], HasResponse := true }])).encoded ≠
    (SendCommandNoRestamp exampleCollaborators { MacAddress := "YWdlbnQ=", Request := "screenshot" }
        emptyStore (scripted "agent" [some { Response := [65], HasResponse := true }])).encoded := by
  decide

/-- C10 (amended): for every command and every sequence of records the store
returns in which the record that ends the polling carries the request
`screenshot` exactly when the command is `screenshot`, SendCommand and the
variant without the re-stamp give the same result, make the same reads and
hand the same payload to the PNG encoder. -/
theorem SendCommand_eq_SendCommandNoRestamp (c : Collaborators) (input : SendCommandInput)
    (store : Store) (addr : String) (records : List (Option Data))
    (hdec : c.DecodeBase64 input.MacAddress = .ok addr)
    (hreq : ∀ got, records.find? endsPolling = some (some got) →
      (got.Request = "screenshot" ↔ input.Request = "screenshot")) :
    (SendCommand c input store (scripted addr records)).outcome =
        (SendCommandNoRestamp c input store (scripted addr records)).outcome ∧
      (SendCommand c input store (scripted addr records)).reads =
        (SendCommandNoRestamp c input store (scripted addr records)).reads ∧
      (SendCommand c input store (scripted addr records)).encoded =
        (SendCommandNoRestamp c input store (scripted addr records)).encoded := by
  unfold SendCommand SendCommandNoRestamp
  rw [hdec]
  exact pollLoop_scripted_eq c addr input.Request records _ _ hreq

theorem SendCommand_eq_SendCommandNoRestamp_witness :
    (SendCommand exampleCollaborators { MacAddress := "YWdlbnQ=", Request := "screenshot" }
        emptyStore (scripted "agent"
          [some { Request := "screenshot" },
           some { Request := "screenshot", Response := [65], HasResponse := true }])).outcome =
      (SendCommandNoRestamp exampleCollaborators
        { MacAddress := "YWdlbnQ=", Request := "screenshot" }
        emptyStore (scripted "agent"
          [some { Request := "screenshot" },
           some { Request := "screenshot", Response := [65], HasResponse := true }])).outcome :=
  (SendCommand_eq_SendCommandNoRestamp exampleCollaborators
    { MacAddress := "YWdlbnQ=", Request := "screenshot" } emptyStore "agent"
    [some { Request := "screenshot" },
     some { Request := "screenshot", Response := [65], HasResponse := true }] rfl
    (by
      intro got h
      simp only [List.find?, endsPolling] at h
      cases h
      exact Iff.rfl)).1

/-! ## The build orchestrator: claims -/

theorem sprintfS_literal (seg rest : List Char) (operands : List String)
    (h : ∀ ch ∈ seg, ch ≠ '%') :
    sprintfS (seg ++ rest) operands = seg ++ sprintfS rest operands := by
  induction seg with
  | nil => rfl
  | cons a t ih =>
    have ha : a ≠ '%' := h a (List.mem_cons_self _ _)
    have ht : ∀ ch ∈ t, ch ≠ '%' := fun ch hc => h ch (List.mem_cons_of_mem _ hc)
    rw [List.cons_append, sprintfS]
    · rw [ih ht, List.cons_append]
    · intros
      simp_all

theorem sprintfS_verb (rest : List Char) (a : String) (operands : List String) :
    sprintfS ('%' :: 's' :: rest) (a :: operands) = a.data ++ sprintfS rest operands := by
  rw [sprintfS]

theorem sprintfS_step (seg rest : List Char) (a : String) (operands : List String)
    (h : ∀ ch ∈ seg, ch ≠ '%') :
    sprintfS (seg ++ '%' :: 's' :: rest) (a :: operands) =
      seg ++ (a.data ++ sprintfS rest operands) := by
  rw [sprintfS_literal seg _ _ h, sprintfS_verb]

set_option maxRecDepth 8000 in
theorem buildStr_segments :
    buildStr.data =
      "GO_ENABLED=1 GOOS=".data ++ '%' :: 's' ::
      ((" GOARCH=amd64 go build -ldflags ".data ++ [Char.ofNat 39]) ++ '%' :: 's' ::
      (" -s -w -X main.Version=".data ++ '%' :: 's' ::
      (" -X main.ServerPort=".data ++ '%' :: 's' ::
      (" -X main.ServerAddress=".data ++ '%' :: 's' ::
      (" -X main.Token=".data ++ '%' :: 's' ::
      ((" -extldflags \"-static\"".data ++ [Char.ofNat 39] ++ " -o ../temp/".data) ++ '%' :: 's' ::
      (" main.go".data ++ []))))))) := by
  decide

/-- The build command is the template with the seven values spliced in
unchanged. -/
theorem Sprintf_buildStr (os hidden version port address token filename : String) :
    Sprintf buildStr [os, hidden, version, port, address, token, filename] =
      String.mk ("GO_ENABLED=1 GOOS=".data ++ (os.data
        ++ ((" GOARCH=amd64 go build -ldflags ".data ++ [Char.ofNat 39]) ++ (hidden.data
        ++ (" -s -w -X main.Version=".data ++ (version.data
        ++ (" -X main.ServerPort=".data ++ (port.data
        ++ (" -X main.ServerAddress=".data ++ (address.data
        ++ (" -X main.Token=".data ++ (token.data
        ++ ((" -extldflags \"-static\"".data ++ [Char.ofNat 39] ++ " -o ../temp/".data)
        ++ (filename.data ++ " main.go".data)))))))))))))) := by
  unfold Sprintf
  rw [buildStr_segments]
  rw [sprintfS_step _ _ _ _ (by decide), sprintfS_step _ _ _ _ (by decide),
    sprintfS_step _ _ _ _ (by decide), sprintfS_step _ _ _ _ (by decide),
    sprintfS_step _ _ _ _ (by decide), sprintfS_step _ _ _ _ (by decide),
    sprintfS_step _ _ _ _ (by decide), sprintfS_literal _ _ _ (by decide)]
  rfl

theorem BuildClient_accepted (b : BuildCollaborators) (input : BuildClientBinaryInput)
    (normal token output : String) (exit : Option GoError)
    (hvalid : (isValidIPAddress input.ServerAddress || isValidURL input.ServerAddress) = true)
    (hnorm : b.NormalizeString input.Filename = .ok normal)
    (htoken : GenerateNewToken b = .ok token)
    (hrun : b.CombinedOutput ["sh", "-c", composed b input normal token] "client/"
      = (output, exit)) :
    BuildClient b input =
      match exit with
      | some err =>
        { filename := "",
          err := some (.build
            { message := err.message ++ ":" ++ output, wrapped := some err.message }),
          tokenRequested := true, command := some (composed b input normal token) }
      | none =>
        { filename := buildFilename b.random input.OSTarget normal, err := none,
          tokenRequested := true, command := some (composed b input normal token) } := by
  have hv : (!isValidIPAddress input.ServerAddress && !isValidURL input.ServerAddress) = false := by
    cases h1 : isValidIPAddress input.ServerAddress <;>
      cases h2 : isValidURL input.ServerAddress <;> simp_all
  unfold composed at hrun
  unfold BuildClient
  rw [hv, hnorm, htoken]
  simp only [Bool.false_eq_true, if_false, hrun]
  cases exit <;> rfl

theorem len_le_zero_iff (f : String) :
    len (TrimSpace f) ≤ 0 ↔ ∀ ch ∈ f.data, isSpace ch = true := by
  rw [Nat.le_zero, len_TrimSpace_eq_zero_iff]

theorem hextable_getD_mem (n : Nat) : hextable.getD n '0' ∈ hextable := by
  by_cases h : n < 16
  · have : n = 0 ∨ n = 1 ∨ n = 2 ∨ n = 3 ∨ n = 4 ∨ n = 5 ∨ n = 6 ∨ n = 7 ∨ n = 8 ∨ n = 9
        ∨ n = 10 ∨ n = 11 ∨ n = 12 ∨ n = 13 ∨ n = 14 ∨ n = 15 := by omega
    rcases this with h | h | h | h | h | h | h | h | h | h | h | h | h | h | h | h <;>
      subst h <;> decide
  · have hlen : hextable.length ≤ n := by
      have : hextable.length = 16 := by decide
      omega
    rw [List.getD_eq_default _ _ hlen]
    decide

theorem encodeHexByte_mem (b : Byte) : ∀ ch ∈ encodeHexByte b, ch ∈ hextable := by
  intro ch h
  simp only [encodeHexByte, List.mem_cons, List.mem_singleton, List.not_mem_nil, or_false] at h
  rcases h with h | h <;> rw [h] <;> exact hextable_getD_mem _

/-- Every character of a UUID string is a hex digit or a dash. -/
theorem UUID_String_chars (u : UUID) : ∀ ch ∈ u.String.data, ch ∈ hextable ∨ ch = '-' := by
  simp only [UUID.String, List.forall_mem_append]
  repeat' apply And.intro
  all_goals
    first
    | (intro ch h; exact Or.inl (encodeHexByte_mem _ ch h))
    | (intro ch h; exact Or.inr (List.mem_singleton.mp h))

theorem UUID_String_ne_empty (u : UUID) : u.String ≠ "" := by
  intro h
  have hl : u.String.data.length = 36 := by
    simp [UUID.String, encodeHexByte]
  rw [h] at hl
  simp at hl

theorem UUID_String_not_exe (u : UUID) : ¬ ".exe".data <:+ u.String.data := by
  intro h
  have hmem : '.' ∈ u.String.data := h.subset (by decide)
  rcases UUID_String_chars u '.' hmem with h1 | h1
  · exact absurd h1 (by decide)
  · exact absurd h1 (by decide)

theorem buildFilename_ne_empty (random : Fin 16 → Byte) (os : OSType) (f : String) :
    buildFilename random os f ≠ "" := by
  have hbase : (if len (TrimSpace f) ≤ 0 then (uuidNew random).String else f) ≠ "" := by
    split
    · exact UUID_String_ne_empty _
    · next h =>
      intro h0
      apply h
      rw [len_le_zero_iff, h0]
      intro ch hch
      cases hch
  have happ : ∀ s : String, s ≠ "" → s ++ ".exe" ≠ "" := by
    intro s _ h
    have := congrArg String.length h
    simp only [String.length_append] at this
    have h4 : ".exe".length = 4 := by decide
    have h0 : "".length = 0 := by decide
    omega
  unfold buildFilename
  cases os with
  | Windows => exact happ _ hbase
  | Linux => exact hbase
  | Other n => exact hbase

theorem hextable_getD_inj_fin :
    ∀ m n : Fin 16, hextable.getD m.val '0' = hextable.getD n.val '0' → m = n := by
  decide

theorem hextable_getD_inj (m n : Nat) (hm : m < 16) (hn : n < 16)
    (h : hextable.getD m '0' = hextable.getD n '0') : m = n := by
  have := hextable_getD_inj_fin ⟨m, hm⟩ ⟨n, hn⟩ h
  exact congrArg Fin.val this

theorem encodeHexByte_inj (b b' : Byte) (h : encodeHexByte b = encodeHexByte b') : b = b' := by
  simp only [encodeHexByte, List.cons.injEq, and_true] at h
  have hb := b.isLt
  have hb' := b'.isLt
  have h1 := hextable_getD_inj _ _ (by omega) (by omega) h.1
  have h2 := hextable_getD_inj _ _ (by omega) (by omega) h.2
  apply Fin.ext
  omega

theorem append_encodeHexByte_inj (l l' : List Char) (b b' : Byte)
    (h : l ++ encodeHexByte b = l' ++ encodeHexByte b') : l = l' ∧ b = b' := by
  have := List.append_inj' h rfl
  exact ⟨this.1, encodeHexByte_inj _ _ this.2⟩

theorem append_dash_inj (l l' : List Char) (h : l ++ ['-'] = l' ++ ['-']) : l = l' :=
  (List.append_inj' h rfl).1

/-- Two UUIDs with the same text are the same UUID. -/
theorem UUID_String_inj (u u' : UUID) (h : u.String = u'.String) : u = u' := by
  have hd : u.String.data = u'.String.data := congrArg String.data h
  unfold UUID.String at hd
  obtain ⟨hd, e15⟩ := append_encodeHexByte_inj _ _ _ _ hd
  obtain ⟨hd, e14⟩ := append_encodeHexByte_inj _ _ _ _ hd
  obtain ⟨hd, e13⟩ := append_encodeHexByte_inj _ _ _ _ hd
  obtain ⟨hd, e12⟩ := append_encodeHexByte_inj _ _ _ _ hd
  obtain ⟨hd, e11⟩ := append_encodeHexByte_inj _ _ _ _ hd
  obtain ⟨hd, e10⟩ := append_encodeHexByte_inj _ _ _ _ hd
  have hd := append_dash_inj _ _ hd
  obtain ⟨hd, e9⟩ := append_encodeHexByte_inj _ _ _ _ hd
  obtain ⟨hd, e8⟩ := append_encodeHexByte_inj _ _ _ _ hd
  have hd := append_dash_inj _ _ hd
  obtain ⟨hd, e7⟩ := append_encodeHexByte_inj _ _ _ _ hd
  obtain ⟨hd, e6⟩ := append_encodeHexByte_inj _ _ _ _ hd
  have hd := append_dash_inj _ _ hd
  obtain ⟨hd, e5⟩ := append_encodeHexByte_inj _ _ _ _ hd
  obtain ⟨hd, e4⟩ := append_encodeHexByte_inj _ _ _ _ hd
  have hd := append_dash_inj _ _ hd
  obtain ⟨hd, e3⟩ := append_encodeHexByte_inj _ _ _ _ hd
  obtain ⟨hd, e2⟩ := append_encodeHexByte_inj _ _ _ _ hd
  obtain ⟨hd, e1⟩ := append_encodeHexByte_inj _ _ _ _ hd
  have e0 := encodeHexByte_inj _ _ hd
  funext i
  fin_cases i
  · exact e0
  · exact e1
  · exact e2
  · exact e3
  · exact e4
  · exact e5
  · exact e6
  · exact e7
  · exact e8
  · exact e9
  · exact e10
  · exact e11
  · exact e12
  · exact e13
  · exact e14
  · exact e15

/-- The UUID made from two draws is the same exactly when the draws carry
the same random bits. -/
theorem uuidNew_eq_iff (r r' : Fin 16 → Byte) : uuidNew r = uuidNew r' ↔ SameDraw r r' := by
  constructor
  · intro h
    refine ⟨?_, ?_, ?_⟩
    · intro i h6 h8
      have := congrFun h i
      simpa [uuidNew, h6, h8] using this
    · have := congrArg Fin.val (congrFun h 6)
      simp only [uuidNew, if_true, Fin.ofNat, Fin.val_mk] at this
      omega
    · have := congrArg Fin.val (congrFun h 8)
      have h86 : ¬ ((8 : Fin 16) = 6) := by decide
      simp only [uuidNew, h86, if_false, if_true, Fin.ofNat, Fin.val_mk] at this
      omega
  · rintro ⟨h1, h2, h3⟩
    funext i
    by_cases h6 : i = 6
    · subst h6
      simp only [uuidNew, if_true, h2]
    · by_cases h8 : i = 8
      · subst h8
        simp only [uuidNew, h6, if_false, if_true, h3]
      · simp only [uuidNew, h6, h8, if_false]
        exact h1 i h6 h8

theorem String_append_right_cancel (s t u : String) (h : s ++ u = t ++ u) : s = t := by
  have hd := congrArg String.data h
  simp only [String.data_append] at hd
  exact String.ext (List.append_cancel_right hd)

/-- C8: buildFilename takes as base name the filename itself unless it is
empty or all white space, in which case the base is the UUID string generated
from the random draw; that string is never empty, and two draws give the same
string exactly when they carry the same 122 random bits, so the name is
generated afresh from each draw.  It returns the base followed by `.exe` for
Windows and the base alone for every other target.  For an empty or
white-space filename the result is non-empty, ends in `.exe` for Windows, does
not end in `.exe` for Linux, and differs between draws that differ. -/
theorem buildFilename_spec (random random' : Fin 16 → Byte) (os : OSType) (f : String) :
    buildFilename random os f =
        (if os = .Windows then
          (if ∀ ch ∈ f.data, isSpace ch = true then (uuidNew random).String else f) ++ ".exe"
        else (if ∀ ch ∈ f.data, isSpace ch = true then (uuidNew random).String else f)) ∧
      (uuidNew random).String ≠ "" ∧
      ((uuidNew random).String = (uuidNew random').String ↔ SameDraw random random') ∧
      ((∀ ch ∈ f.data, isSpace ch = true) →
        buildFilename random os f ≠ "" ∧
        (os = .Windows → ".exe".data <:+ (buildFilename random os f).data) ∧
        (os = .Linux → ¬ ".exe".data <:+ (buildFilename random os f).data) ∧
        (buildFilename random os f = buildFilename random' os f ↔ SameDraw random random')) := by
  have hmain : ∀ r : Fin 16 → Byte, buildFilename r os f =
      (if os = .Windows then
        (if ∀ ch ∈ f.data, isSpace ch = true then (uuidNew r).String else f) ++ ".exe"
      else (if ∀ ch ∈ f.data, isSpace ch = true then (uuidNew r).String else f)) := by
    intro r
    unfold buildFilename
    simp only [len_le_zero_iff]
    cases os <;> simp
  have hfresh : (uuidNew random).String = (uuidNew random').String ↔ SameDraw random random' := by
    rw [← uuidNew_eq_iff]
    exact ⟨UUID_String_inj _ _, fun h => by rw [h]⟩
  refine ⟨hmain random, UUID_String_ne_empty _, hfresh, ?_⟩
  intro hsp
  refine ⟨buildFilename_ne_empty random os f, ?_, ?_, ?_⟩
  · intro hw
    rw [hmain, if_pos hw]
    exact ⟨_, rfl⟩
  · intro hl
    rw [hmain, hl, if_neg (by decide), if_pos hsp]
    exact UUID_String_not_exe _
  · rw [hmain random, hmain random', if_pos hsp, if_pos hsp, ← hfresh]
    by_cases hw : os = .Windows
    · rw [if_pos hw, if_pos hw]
      exact ⟨String_append_right_cancel _ _ _, fun h => by rw [h]⟩
    · rw [if_neg hw, if_neg hw]

theorem buildFilename_spec_witness :
    buildFilename (fun i => Fin.ofNat (17 * i.val)) .Windows "" =
        "00112233-4455-4677-8899-aabbccddeeff.exe" ∧
      buildFilename (fun i => Fin.ofNat (17 * i.val)) .Linux " " ≠
        buildFilename (fun _ => 0) .Linux " " := by
  refine ⟨by decide, ?_⟩
  intro h
  have hsame := ((buildFilename_spec (fun i => Fin.ofNat (17 * i.val)) (fun _ => 0) .Linux " ").2.2.2
    (by decide)).2.2.2.mp h
  have := hsame.1 1 (by decide) (by decide)
  exact absurd this (by decide)

/-- C6 (as stated, refuted): the server address `/x` is neither a literal IP
address nor an absolute URL (it has no scheme), yet it parses as a request
URI, so BuildClient accepts it and runs the build. -/
theorem BuildClient_accepts_absolute_path :
    ParseIP "/x" = false ∧ ParseRequestURI "/x" = some "" ∧ IsAbsoluteURL "/x" = false ∧
    (BuildClient (exampleBuild "" none)
        { ServerAddress := "/x", ServerPort := "8080", OSTarget := .Linux,
          Filename := "agent", RunHidden := false }).err = none ∧
    (BuildClient (exampleBuild "" none)
        { ServerAddress := "/x", ServerPort := "8080", OSTarget := .Linux,
          Filename := "agent", RunHidden := false }).filename = "agent" := by
  decide

/-- C6 (amended): BuildClient returns ErrInvalidServerAddress exactly when the
server address parses neither as a literal IP address nor as a request URI
(an absolute URI or an absolute path); in that case it returns an empty
filename, requests no token and starts no process.  The address
`not-an-address` is rejected, `192.0.2.1` and `https://example.com` pass. -/
theorem BuildClient_invalid_server_address (b : BuildCollaborators)
    (input : BuildClientBinaryInput) :
    ((BuildClient b input).err = some .ErrInvalidServerAddress ↔
        (ParseIP input.ServerAddress = false ∧ ParseRequestURI input.ServerAddress = none)) ∧
      ((BuildClient b input).err = some .ErrInvalidServerAddress →
        (BuildClient b input).filename = "" ∧ (BuildClient b input).tokenRequested = false ∧
        (BuildClient b input).command = none) ∧
      (ParseIP "not-an-address" = false ∧ ParseRequestURI "not-an-address" = none) ∧
      ParseIP "192.0.2.1" = true ∧ ParseRequestURI "https://example.com" = some "https" := by
  have hurl : isValidURL input.ServerAddress = false ↔
      ParseRequestURI input.ServerAddress = none := by
    unfold isValidURL
    cases ParseRequestURI input.ServerAddress <;> simp
  have key : (BuildClient b input).err = some .ErrInvalidServerAddress ↔
      (!isValidIPAddress input.ServerAddress && !isValidURL input.ServerAddress) = true := by
    unfold BuildClient
    split
    · next h => simp [h]
    · next h =>
      simp only [h, iff_false]
      split
      · simp
      · split
        · simp
        · split <;> simp
  refine ⟨?_, ?_, by decide, by decide, by decide⟩
  · rw [key, ← hurl]
    simp [isValidIPAddress]
  · intro h
    have hv := key.mp h
    unfold BuildClient
    rw [if_pos hv]
    exact ⟨rfl, rfl, rfl⟩

set_option maxRecDepth 8000 in
/-- C7 (as stated, refuted): BuildClient accepts a server port and a server
address that contain single quotes; the port is spliced into the command
unchanged, where its quote closes the `-ldflags` argument and the text after
it starts further shell commands. -/
theorem BuildClient_accepts_quotes :
    BuildClient (exampleBuild "" none)
        { ServerAddress := "192.0.2.1", ServerPort := "80' ; id ; '", OSTarget := .Linux,
          Filename := "agent", RunHidden := false } =
      { filename := "agent", err := none, tokenRequested := true,
        command := some "GO_ENABLED=1 GOOS=linux GOARCH=amd64 go build -ldflags ' -s -w -X main.Version=v5.0.0 -X main.ServerPort=80' ; id ; ' -X main.ServerAddress=192.0.2.1 -X main.Token=token -extldflags \"-static\"' -o ../temp/agent main.go" } ∧
    countQuotes "80' ; id ; '" = 2 ∧
    countQuotes "http://h/';id;'" = 2 ∧
    (BuildClient (exampleBuild "" none)
        { ServerAddress := "http://h/';id;'", ServerPort := "80", OSTarget := .Linux,
          Filename := "agent", RunHidden := false }).err = none := by
  decide

theorem countQuotes_mk_append (l m : List Char) :
    countQuotes (String.mk (l ++ m)) = countQuotes (String.mk l) + countQuotes (String.mk m) := by
  simp [countQuotes, List.count_append]

/-- C7 (amended): for every input that BuildClient accepts, the command handed
to the shell is the build template with operating system, hidden flag,
version, server port, server address, token and filename spliced in
unchanged; it holds the two single quotes that delimit the `-ldflags`
argument plus every single quote of the version, port, address, token and
filename, so it has exactly those two when none of the values contains one. -/
theorem BuildClient_command_verbatim (b : BuildCollaborators) (input : BuildClientBinaryInput)
    (normal token output : String) (exit : Option GoError)
    (hvalid : (isValidIPAddress input.ServerAddress || isValidURL input.ServerAddress) = true)
    (hnorm : b.NormalizeString input.Filename = .ok normal)
    (htoken : GenerateNewToken b = .ok token)
    (hrun : b.CombinedOutput ["sh", "-c", composed b input normal token] "client/"
      = (output, exit)) :
    (BuildClient b input).command = some (composed b input normal token) ∧
      composed b input normal token =
        "GO_ENABLED=1 GOOS=" ++ handleOSType input.OSTarget
          ++ " GOARCH=amd64 go build -ldflags " ++ String.mk [Char.ofNat 39]
          ++ runHidden input.RunHidden
          ++ " -s -w -X main.Version=" ++ b.AppVersion
          ++ " -X main.ServerPort=" ++ input.ServerPort
          ++ " -X main.ServerAddress=" ++ input.ServerAddress
          ++ " -X main.Token=" ++ token
          ++ " -extldflags \"-static\"" ++ String.mk [Char.ofNat 39]
          ++ " -o ../temp/" ++ buildFilename b.random input.OSTarget normal ++ " main.go" ∧
      countQuotes (composed b input normal token) =
        2 + countQuotes b.AppVersion + countQuotes input.ServerPort
          + countQuotes input.ServerAddress + countQuotes token
          + countQuotes (buildFilename b.random input.OSTarget normal) := by
  have hcmd : (BuildClient b input).command = some (composed b input normal token) := by
    rw [BuildClient_accepted b input normal token output exit hvalid hnorm htoken hrun]
    cases exit <;> rfl
  have hos : countQuotes (handleOSType input.OSTarget) = 0 := by
    cases input.OSTarget <;> rfl
  have hhid : countQuotes (runHidden input.RunHidden) = 0 := by
    cases input.RunHidden <;> decide
  refine ⟨hcmd, ?_, ?_⟩
  · unfold composed
    rw [Sprintf_buildStr]
    apply String.ext
    simp only [String.data_append, List.append_assoc]
  · unfold composed
    rw [Sprintf_buildStr]
    simp only [countQuotes] at hos hhid ⊢
    simp only [List.count_append, hos, hhid]
    have e1 : List.count (Char.ofNat 39) "GO_ENABLED=1 GOOS=".data = 0 := by decide
    have e2 : List.count (Char.ofNat 39) " GOARCH=amd64 go build -ldflags ".data = 0 := by decide
    have e3 : List.count (Char.ofNat 39) " -s -w -X main.Version=".data = 0 := by decide
    have e4 : List.count (Char.ofNat 39) " -X main.ServerPort=".data = 0 := by decide
    have e5 : List.count (Char.ofNat 39) " -X main.ServerAddress=".data = 0 := by decide
    have e6 : List.count (Char.ofNat 39) " -X main.Token=".data = 0 := by decide
    have e7 : List.count (Char.ofNat 39) " -extldflags \"-static\"".data = 0 := by decide
    have e8 : List.count (Char.ofNat 39) " -o ../temp/".data = 0 := by decide
    have e9 : List.count (Char.ofNat 39) " main.go".data = 0 := by decide
    have e10 : List.count (Char.ofNat 39) [Char.ofNat 39] = 1 := by decide
    rw [e1, e2, e3, e4, e5, e6, e7, e8, e9, e10]
    omega

theorem BuildClient_command_verbatim_witness :
    countQuotes (composed (exampleBuild "" none)
        { ServerAddress := "192.0.2.1", ServerPort := "8080", OSTarget := .Windows,
          Filename := "agent", RunHidden := true } "agent" "token") = 2 :=
  (BuildClient_command_verbatim (exampleBuild "" none)
    { ServerAddress := "192.0.2.1", ServerPort := "8080", OSTarget := .Windows,
      Filename := "agent", RunHidden := true } "agent" "token" "" none
    (by decide) rfl rfl rfl).2.2

/-- C9: for every accepted input, BuildClient runs the composed command, whose
output path is `../temp/` followed by the resolved filename; it returns the
resolved filename with no error exactly when the process ends without error,
and when the process fails with an error it returns an empty filename and an
error that wraps the process error and whose message is the process error's
message, a colon, and the captured combined output. -/
theorem BuildClient_result (b : BuildCollaborators) (input : BuildClientBinaryInput)
    (normal token output : String) (exit : Option GoError)
    (hvalid : (isValidIPAddress input.ServerAddress || isValidURL input.ServerAddress) = true)
    (hnorm : b.NormalizeString input.Filename = .ok normal)
    (htoken : GenerateNewToken b = .ok token)
    (hrun : b.CombinedOutput ["sh", "-c", composed b input normal token] "client/"
      = (output, exit)) :
    (BuildClient b input).command = some (composed b input normal token) ∧
      (∃ pre, composed b input normal token =
        pre ++ " -o ../temp/" ++ buildFilename b.random input.OSTarget normal ++ " main.go") ∧
      (((BuildClient b input).filename = buildFilename b.random input.OSTarget normal ∧
          (BuildClient b input).err = none) ↔ exit = none) ∧
      (∀ e, exit = some e →
        (BuildClient b input).filename = "" ∧
        (BuildClient b input).err = some (.build
          { message := e.message ++ ":" ++ output, wrapped := some e.message }) ∧
        ∃ pre, e.message ++ ":" ++ output = pre ++ output) := by
  rw [BuildClient_accepted b input normal token output exit hvalid hnorm htoken hrun]
  refine ⟨?_, ?_, ?_, ?_⟩
  · cases exit <;> rfl
  · unfold composed
    rw [Sprintf_buildStr]
    refine ⟨String.mk ("GO_ENABLED=1 GOOS=".data ++ (handleOSType input.OSTarget).data
      ++ " GOARCH=amd64 go build -ldflags ".data ++ [Char.ofNat 39]
      ++ (runHidden input.RunHidden).data
      ++ " -s -w -X main.Version=".data ++ b.AppVersion.data
      ++ " -X main.ServerPort=".data ++ input.ServerPort.data
      ++ " -X main.ServerAddress=".data ++ input.ServerAddress.data
      ++ " -X main.Token=".data ++ token.data
      ++ " -extldflags \"-static\"".data ++ [Char.ofNat 39]), ?_⟩
    apply String.ext
    simp only [String.data_append, List.append_assoc]
  · cases exit with
    | none => simp
    | some e =>
      simp only [false_and, iff_false, not_and, reduceCtorEq]
      intro h
      exact absurd h.symm (buildFilename_ne_empty _ _ _)
  · intro e he
    subst he
    exact ⟨rfl, rfl, e.message ++ ":", rfl⟩

theorem BuildClient_result_witness :
    (BuildClient (exampleBuild "main.go:1: syntax error" (some { message := "exit status 1" }))
        { ServerAddress := "https://example.com", ServerPort := "8080", OSTarget := .Linux,
          Filename := "agent", RunHidden := false }).err =
      some (.build { message := "exit status 1:main.go:1: syntax error",
                     wrapped := some "exit status 1" }) ∧
    (BuildClient (exampleBuild "" none)
        { ServerAddress := "https://example.com", ServerPort := "8080", OSTarget := .Windows,
          Filename := "agent", RunHidden := false }).filename = "agent.exe" :=
  ⟨((BuildClient_result
      (exampleBuild "main.go:1: syntax error" (some { message := "exit status 1" }))
      { ServerAddress := "https://example.com", ServerPort := "8080", OSTarget := .Linux,
        Filename := "agent", RunHidden := false } "agent" "token" "main.go:1: syntax error"
      (some { message := "exit status 1" }) (by decide) rfl rfl rfl).2.2.2
      { message := "exit status 1" } rfl).2.1,
   ((BuildClient_result (exampleBuild "" none)
      { ServerAddress := "https://example.com", ServerPort := "8080", OSTarget := .Windows,
        Filename := "agent", RunHidden := false } "agent" "token" "" none
      (by decide) rfl rfl rfl).2.2.1.mpr rfl).1⟩

end Chaos
